import Mathlib

/-!
Shallow embedding of the tic-tac-toe engine from `src/game.rs` and the move
parser from `src/main.rs`, together with proofs of the specification claims.

Rust operations that can abort the program at runtime (array/slice indexing
out of bounds, a failed `assert!`, string byte-slicing off a character
boundary, usize underflow in debug builds) are modelled in the `Option`
monad: `none` is a runtime abort, and `some v` is a normally returned value.
-/

set_option maxHeartbeats 1600000

namespace TicTacToe

/-- Board size constant (`BOARD_SIZE` in `game.rs`). -/
def BOARD_SIZE : Nat := 3

/-- The two player pieces (`enum Piece` in `game.rs`). -/
inductive Piece where
  | X
  | O
  deriving DecidableEq, Fintype

/-- Swap pieces (`Piece::other` in `game.rs`). -/
def Piece.other : Piece → Piece
  | .X => .O
  | .O => .X

/-- A board cell: empty or holding one piece (`type Tile = Option<Piece>`). -/
abbrev Tile := Option Piece

/-- The board: rows of tiles (`type Tiles = [[Tile; BOARD_SIZE]; BOARD_SIZE]`).
Rust fixes both lengths at 3 in the type; here that invariant is the
predicate `Tiles.wf` below. -/
abbrev Tiles := List (List Tile)

/-- Result of a finished game (`enum Winner` in `game.rs`). -/
inductive Winner where
  | X
  | O
  | Tie
  deriving DecidableEq, Fintype

/-- Errors that `make_move` can return (`enum MoveError` in `game.rs`). -/
inductive MoveError where
  | GameAlreadyOver
  | InvalidPosition (row col : Nat)
  | TileNotEmpty (other_piece : Piece) (row col : Nat)
  deriving DecidableEq

/-- Game state (`struct Game` in `game.rs`). -/
structure Game where
  tiles : Tiles
  current_piece : Piece
  winner : Option Winner
  deriving DecidableEq

/-- Fresh game (`Game::new`): all tiles empty (the `Default` of the array
type), current piece X, no winner. -/
def Game.new : Game :=
  { tiles := List.replicate BOARD_SIZE (List.replicate BOARD_SIZE (none : Tile))
    current_piece := Piece.X
    winner := none }

/-- Rust array/slice read `l[i]`: aborts (models the index-out-of-bounds
run-time error) when `i` is out of range. -/
def idx {α : Type} (l : List α) (i : Nat) : Option α := l.get? i

/-- Rust array write `l[i] = v`: aborts when `i` is out of range. -/
def setIdx {α : Type} (l : List α) (i : Nat) (v : α) : Option (List α) :=
  if i < l.length then some (l.set i v) else none

/-- Accessor `Game::is_finished`. -/
def Game.is_finished (g : Game) : Bool := g.winner.isSome

/-- The inner function `check_winner` of `Game::update_winner` in `game.rs`:
`if row[0] == row[1] && row[1] == row[2] { match row[0] { ... } } else { None }`.
The `&&` is short-circuiting, so `row[2]` is read only when `row[0] == row[1]`. -/
def check_winner (row : List Tile) : Option (Option Winner) :=
  (idx row 0).bind fun r0 =>
  (idx row 1).bind fun r1 =>
  if r0 = r1 then
    (idx row 2).bind fun r2 =>
    if r1 = r2 then
      some (match r0 with
        | some Piece.X => some Winner.X
        | some Piece.O => some Winner.O
        | none => none)
    else
      some none
  else
    some none

/-- Rust `Option::or_else` as used in `update_winner`: when `x` is `Some` the
closure never runs (so a potential abort inside it, `y = none`, is ignored);
when `x` is `None` the closure's outcome `y` is the result. -/
def orElseP (x : Option Winner) (y : Option (Option Winner)) : Option (Option Winner) :=
  match x with
  | some w => some (some w)
  | none => y

/-- The board-full test of `update_winner`:
`self.tiles.iter().all(|row| row.iter().all(|tile| tile.is_some()))`. -/
def allFull (t : Tiles) : Bool := t.all fun r => r.all fun tile => tile.isSome

/-- The winner value computed by `Game::update_winner` in `game.rs`, in the
source's evaluation order: `rows`, `cols`, `tiles_row`, `tiles_col`, the
`assert!(rows == 3 && cols == 3)` (abort when it fails), `tiles_diagonal_1`
(when `row == col`), the debug-build underflow check of `rows - row - 1`,
`tiles_diagonal_2` (when `rows - row - 1 == col`), the `or_else` chain
starting from `self.winner`, and finally the board-full `or_else`. -/
def update_winner_aux (g : Game) (row col : Nat) : Option (Option Winner) :=
  let rows := g.tiles.length
  (idx g.tiles 0).bind fun firstRow =>
  let cols := firstRow.length
  (idx g.tiles row).bind fun tiles_row =>
  (idx g.tiles 0).bind fun c0 =>
  (idx c0 col).bind fun e0 =>
  (idx g.tiles 1).bind fun c1 =>
  (idx c1 col).bind fun e1 =>
  (idx g.tiles 2).bind fun c2 =>
  (idx c2 col).bind fun e2 =>
  let tiles_col : List Tile := [e0, e1, e2]
  if rows = 3 ∧ cols = 3 then
    (if row = col then
      (idx g.tiles 0).bind fun d0 =>
      (idx d0 0).bind fun x0 =>
      (idx g.tiles 1).bind fun d1 =>
      (idx d1 1).bind fun x1 =>
      (idx g.tiles 2).bind fun d2 =>
      (idx d2 2).bind fun x2 =>
      some [x0, x1, x2]
    else
      some ([none, none, none] : List Tile)).bind fun tiles_diagonal_1 =>
    (if row + 1 ≤ rows then some (rows - row - 1) else none).bind fun antiRow =>
    (if antiRow = col then
      (idx g.tiles 0).bind fun a0 =>
      (idx a0 2).bind fun y0 =>
      (idx g.tiles 1).bind fun a1 =>
      (idx a1 1).bind fun y1 =>
      (idx g.tiles 2).bind fun a2 =>
      (idx a2 0).bind fun y2 =>
      some [y0, y1, y2]
    else
      some ([none, none, none] : List Tile)).bind fun tiles_diagonal_2 =>
    (orElseP g.winner (check_winner tiles_row)).bind fun w1 =>
    (orElseP w1 (check_winner tiles_col)).bind fun w2 =>
    (orElseP w2 (check_winner tiles_diagonal_1)).bind fun w3 =>
    (orElseP w3 (check_winner tiles_diagonal_2)).bind fun w4 =>
    some (match w4 with
      | some w => some w
      | none => if allFull g.tiles then some Winner.Tie else none)
  else
    none

/-- `Game::update_winner`: writes the value computed above into
`self.winner` and touches nothing else. -/
def update_winner (g : Game) (row col : Nat) : Option Game :=
  (update_winner_aux g row col).map fun w => { g with winner := w }

/-- `Game::make_move` in `game.rs`. The result pairs the returned
`Result<(), MoveError>` with the state after the call (errors are returned
before any mutation, so the paired state is `g` itself there); the outer
`Option` models a runtime abort. The bounds test mirrors the source's
short-circuiting `row >= self.tiles.len() || col >= self.tiles[0].len()`. -/
def make_move (g : Game) (row col : Nat) : Option (Except MoveError Unit × Game) :=
  if g.is_finished then
    some (Except.error MoveError.GameAlreadyOver, g)
  else if g.tiles.length ≤ row then
    some (Except.error (MoveError.InvalidPosition row col), g)
  else
    (idx g.tiles 0).bind fun firstRow =>
    if firstRow.length ≤ col then
      some (Except.error (MoveError.InvalidPosition row col), g)
    else
      (idx g.tiles row).bind fun theRow =>
      (idx theRow col).bind fun tile =>
      match tile with
      | some other_piece => some (Except.error (MoveError.TileNotEmpty other_piece row col), g)
      | none =>
        (setIdx theRow col (some g.current_piece)).bind fun newRow =>
        (setIdx g.tiles row newRow).bind fun tiles' =>
        let g1 : Game := { g with tiles := tiles', current_piece := g.current_piece.other }
        (update_winner g1 row col).map fun g2 => (Except.ok (), g2)

/-- The Rust type `[[Tile; 3]; 3]` forces exactly three rows of exactly three
tiles; this predicate carries that structural invariant for the list model. -/
def Tiles.wf (t : Tiles) : Prop := t.length = 3 ∧ ∀ r ∈ t, r.length = 3

instance (t : Tiles) : Decidable (Tiles.wf t) :=
  inferInstanceAs (Decidable (t.length = 3 ∧ ∀ r ∈ t, r.length = 3))

/-- Games reachable through the public interface: `Game::new` followed by any
number of successful `make_move` calls (failing calls leave the state
unchanged, so they add no states). -/
inductive Reachable : Game → Prop where
  | new : Reachable Game.new
  | step {g g' : Game} {row col : Nat} :
      Reachable g → make_move g row col = some (Except.ok (), g') → Reachable g'

/-- Run a list of moves from a state; `none` when any move aborts or returns
an error. -/
def playAll : Game → List (Nat × Nat) → Option Game
  | g, [] => some g
  | g, (r, c) :: ms =>
    match make_move g r c with
    | some (Except.ok (), g') => playAll g' ms
    | _ => none

/-- Total board read used to state properties: the tile at `(r, c)`, empty
when out of range. -/
def tileAt (t : Tiles) (r c : Nat) : Tile := (((t.get? r).getD []).get? c).getD none

/-- The winner corresponding to a piece. -/
def winnerOfPiece : Piece → Winner
  | .X => .X
  | .O => .O

/-- Stated from the spec: a candidate line yields a winner exactly when all
three of its tiles are occupied by the same piece, and the winner is that
piece. -/
def lineWinner (a b c : Tile) : Option Winner :=
  match a, b, c with
  | some p, some q, some r => if p = q ∧ q = r then some (winnerOfPiece p) else none
  | _, _, _ => none

/-- Stated from the spec: every one of the nine tiles is occupied. -/
def specAllOccupied (t : Tiles) : Bool :=
  (List.range 3).all fun r => (List.range 3).all fun c => (tileAt t r c).isSome

/-- Stated from the spec's pivot algorithm: evaluate, in order, the full row
at `row`, the full column at `col`, the main diagonal when `row = col`, the
anti-diagonal when `row + col = 2`; take the first winner; with no winner,
Tie when all nine tiles are occupied, and otherwise no outcome. -/
def specPivotOutcome (t : Tiles) (row col : Nat) : Option Winner :=
  match lineWinner (tileAt t row 0) (tileAt t row 1) (tileAt t row 2) with
  | some w => some w
  | none =>
    match lineWinner (tileAt t 0 col) (tileAt t 1 col) (tileAt t 2 col) with
    | some w => some w
    | none =>
      match (if row = col then lineWinner (tileAt t 0 0) (tileAt t 1 1) (tileAt t 2 2) else none) with
      | some w => some w
      | none =>
        match (if row + col = 2 then lineWinner (tileAt t 0 2) (tileAt t 1 1) (tileAt t 2 0) else none) with
        | some w => some w
        | none => if specAllOccupied t then some Winner.Tie else none

/-- Sum a per-tile weight over the whole board. -/
def tileCount (f : Tile → Nat) (t : Tiles) : Nat := (t.map fun r => (r.map f).sum).sum

/-- Number of occupied tiles. -/
def countOccupied (t : Tiles) : Nat := tileCount (fun tile => if tile.isSome then 1 else 0) t

/-- Number of tiles holding the piece `p`. -/
def countPiece (p : Piece) (t : Tiles) : Nat := tileCount (fun tile => if tile = some p then 1 else 0) t

/-- The error type of `parse_move` (`struct InvalidMove(pub String)` in
`main.rs`); strings are modelled as their character sequences. -/
structure InvalidMove where
  val : List Char
  deriving DecidableEq

/-- Rust `str::len`: the length in UTF-8 bytes. -/
def byteLen (s : List Char) : Nat := (s.map Char.utf8Size).sum

/-- Drop the first `n` bytes of a UTF-8 string; aborts (models the Rust
slicing run-time error) when `n` is past the end or not on a character
boundary. -/
def dropBytes : List Char → Nat → Option (List Char)
  | s, 0 => some s
  | [], _ + 1 => none
  | c :: cs, n + 1 =>
    if c.utf8Size ≤ n + 1 then dropBytes cs (n + 1 - c.utf8Size) else none

/-- Keep the first `n` bytes of a UTF-8 string; aborts when `n` is past the
end or not on a character boundary. -/
def takeBytes : List Char → Nat → Option (List Char)
  | _, 0 => some []
  | [], _ + 1 => none
  | c :: cs, n + 1 =>
    if c.utf8Size ≤ n + 1 then (takeBytes cs (n + 1 - c.utf8Size)).map (c :: ·) else none

/-- Rust string slicing `&s[a..b]`: slices by byte index and aborts when `a`
or `b` is not a character boundary of `s` (or `a > b`, or `b` past the end). -/
def strSlice (s : List Char) (a b : Nat) : Option (List Char) :=
  if a ≤ b then (dropBytes s a).bind fun t => takeBytes t (b - a) else none

/-- The function `parse_move` of `main.rs`: rejects inputs whose byte length
is not 2, then matches the byte slice `[0..1]` against "1"/"2"/"3" and the
byte slice `[1..2]` against "A"/"a"/"B"/"b"/"C"/"c", returning the
zero-indexed pair; the row failure echoes the whole input, the column
failure echoes the offending slice. -/
def parse_move (input : List Char) : Option (Except InvalidMove (Nat × Nat)) :=
  if byteLen input ≠ 2 then
    some (Except.error ⟨input⟩)
  else
    (strSlice input 0 1).bind fun s1 =>
    match (if s1 = ['1'] then some 0
           else if s1 = ['2'] then some 1
           else if s1 = ['3'] then some 2
           else none : Option Nat) with
    | none => some (Except.error ⟨input⟩)
    | some row =>
      (strSlice input 1 2).bind fun s2 =>
      match (if s2 = ['A'] ∨ s2 = ['a'] then some 0
             else if s2 = ['B'] ∨ s2 = ['b'] then some 1
             else if s2 = ['C'] ∨ s2 = ['c'] then some 2
             else none : Option Nat) with
      | none => some (Except.error ⟨s2⟩)
      | some col => some (Except.ok (row, col))

/-! ### Helper lemmas -/

/-- Read the head of a cons cell at literal index 0. -/
theorem get?_lit0 {α : Type} (a : α) (l : List α) : (a :: l).get? 0 = some a := rfl

/-- Read a cons cell at literal index 1. -/
theorem get?_lit1 {α : Type} (a b : α) (l : List α) : (a :: b :: l).get? 1 = some b := rfl

/-- Read a cons cell at literal index 2. -/
theorem get?_lit2 {α : Type} (a b c : α) (l : List α) : (a :: b :: c :: l).get? 2 = some c := rfl

/-- The source's `check_winner` computes exactly the spec's line rule on a
three-tile line. -/
theorem check_winner_line : ∀ x y z : Tile, check_winner [x, y, z] = some (lineWinner x y z) := by
  decide

/-- On a 3x3 board the spec's nine-tile occupancy test agrees with the
source's iterator-based test. -/
theorem specAllOccupied_shape (a b c d e f g h i : Tile) :
    specAllOccupied [[a,b,c],[d,e,f],[g,h,i]] = allFull [[a,b,c],[d,e,f],[g,h,i]] := by
  simp [specAllOccupied, allFull, tileAt, List.range_succ]

/-- A list of tiles of length 3 is a literal three-element list. -/
theorem len3_shape (l : List Tile) (h : l.length = 3) : ∃ x y z : Tile, l = [x, y, z] := by
  match l, h with
  | [x, y, z], _ => exact ⟨x, y, z, rfl⟩

/-- A well-formed board is a literal 3x3 grid. -/
theorem wf_shape {t : Tiles} (hwf : Tiles.wf t) :
    ∃ a b c d e f g h i : Tile, t = [[a,b,c],[d,e,f],[g,h,i]] := by
  obtain ⟨hlen, hrows⟩ := hwf
  match t, hlen with
  | [r0, r1, r2], _ =>
    obtain ⟨a, b, c, h0⟩ := len3_shape r0 (hrows r0 (by simp))
    obtain ⟨d, e, f, h1⟩ := len3_shape r1 (hrows r1 (by simp))
    obtain ⟨g, h, i, h2⟩ := len3_shape r2 (hrows r2 (by simp))
    exact ⟨a, b, c, d, e, f, g, h, i, by rw [h0, h1, h2]⟩

/-- On a board whose prior winner is absent, `update_winner_aux` returns
normally and computes exactly the spec's pivot outcome. -/
theorem update_winner_aux_spec (a b c d e f g h i : Tile) (p : Piece) (row col : Nat)
    (hrow : row < 3) (hcol : col < 3) :
    update_winner_aux ⟨[[a,b,c],[d,e,f],[g,h,i]], p, none⟩ row col =
      some (specPivotOutcome [[a,b,c],[d,e,f],[g,h,i]] row col) := by
  interval_cases row <;> interval_cases col
  · rw [show update_winner_aux ⟨[[a,b,c],[d,e,f],[g,h,i]], p, none⟩ 0 0 =
      ((check_winner [a,b,c]).bind fun w1 =>
       (orElseP w1 (check_winner [a,d,g])).bind fun w2 =>
       (orElseP w2 (check_winner [a,e,i])).bind fun w3 =>
       (orElseP w3 (some none)).bind fun w4 =>
       some (match w4 with
         | some w => some w
         | none => if allFull [[a,b,c],[d,e,f],[g,h,i]] then some Winner.Tie else none)) from rfl,
      check_winner_line, check_winner_line, check_winner_line]
    simp [specPivotOutcome, tileAt, get?_lit0, get?_lit1, get?_lit2, specAllOccupied_shape]
    cases lineWinner a b c <;> cases lineWinner a d g <;> cases lineWinner a e i <;> simp [orElseP]
  · rw [show update_winner_aux ⟨[[a,b,c],[d,e,f],[g,h,i]], p, none⟩ 0 1 =
      ((check_winner [a,b,c]).bind fun w1 =>
       (orElseP w1 (check_winner [b,e,h])).bind fun w2 =>
       (orElseP w2 (some none)).bind fun w3 =>
       (orElseP w3 (some none)).bind fun w4 =>
       some (match w4 with
         | some w => some w
         | none => if allFull [[a,b,c],[d,e,f],[g,h,i]] then some Winner.Tie else none)) from rfl,
      check_winner_line, check_winner_line]
    simp [specPivotOutcome, tileAt, get?_lit0, get?_lit1, get?_lit2, specAllOccupied_shape]
    cases lineWinner a b c <;> cases lineWinner b e h <;> simp [orElseP]
  · rw [show update_winner_aux ⟨[[a,b,c],[d,e,f],[g,h,i]], p, none⟩ 0 2 =
      ((check_winner [a,b,c]).bind fun w1 =>
       (orElseP w1 (check_winner [c,f,i])).bind fun w2 =>
       (orElseP w2 (some none)).bind fun w3 =>
       (orElseP w3 (check_winner [c,e,g])).bind fun w4 =>
       some (match w4 with
         | some w => some w
         | none => if allFull [[a,b,c],[d,e,f],[g,h,i]] then some Winner.Tie else none)) from rfl,
      check_winner_line, check_winner_line, check_winner_line]
    simp [specPivotOutcome, tileAt, get?_lit0, get?_lit1, get?_lit2, specAllOccupied_shape]
    cases lineWinner a b c <;> cases lineWinner c f i <;> cases lineWinner c e g <;> simp [orElseP]
  · rw [show update_winner_aux ⟨[[a,b,c],[d,e,f],[g,h,i]], p, none⟩ 1 0 =
      ((check_winner [d,e,f]).bind fun w1 =>
       (orElseP w1 (check_winner [a,d,g])).bind fun w2 =>
       (orElseP w2 (some none)).bind fun w3 =>
       (orElseP w3 (some none)).bind fun w4 =>
       some (match w4 with
         | some w => some w
         | none => if allFull [[a,b,c],[d,e,f],[g,h,i]] then some Winner.Tie else none)) from rfl,
      check_winner_line, check_winner_line]
    simp [specPivotOutcome, tileAt, get?_lit0, get?_lit1, get?_lit2, specAllOccupied_shape]
    cases lineWinner d e f <;> cases lineWinner a d g <;> simp [orElseP]
  · rw [show update_winner_aux ⟨[[a,b,c],[d,e,f],[g,h,i]], p, none⟩ 1 1 =
      ((check_winner [d,e,f]).bind fun w1 =>
       (orElseP w1 (check_winner [b,e,h])).bind fun w2 =>
       (orElseP w2 (check_winner [a,e,i])).bind fun w3 =>
       (orElseP w3 (check_winner [c,e,g])).bind fun w4 =>
       some (match w4 with
         | some w => some w
         | none => if allFull [[a,b,c],[d,e,f],[g,h,i]] then some Winner.Tie else none)) from rfl,
      check_winner_line, check_winner_line, check_winner_line, check_winner_line]
    simp [specPivotOutcome, tileAt, get?_lit0, get?_lit1, get?_lit2, specAllOccupied_shape]
    cases lineWinner d e f <;> cases lineWinner b e h <;> cases lineWinner a e i <;> cases lineWinner c e g <;> simp [orElseP]
  · rw [show update_winner_aux ⟨[[a,b,c],[d,e,f],[g,h,i]], p, none⟩ 1 2 =
      ((check_winner [d,e,f]).bind fun w1 =>
       (orElseP w1 (check_winner [c,f,i])).bind fun w2 =>
       (orElseP w2 (some none)).bind fun w3 =>
       (orElseP w3 (some none)).bind fun w4 =>
       some (match w4 with
         | some w => some w
         | none => if allFull [[a,b,c],[d,e,f],[g,h,i]] then some Winner.Tie else none)) from rfl,
      check_winner_line, check_winner_line]
    simp [specPivotOutcome, tileAt, get?_lit0, get?_lit1, get?_lit2, specAllOccupied_shape]
    cases lineWinner d e f <;> cases lineWinner c f i <;> simp [orElseP]
  · rw [show update_winner_aux ⟨[[a,b,c],[d,e,f],[g,h,i]], p, none⟩ 2 0 =
      ((check_winner [g,h,i]).bind fun w1 =>
       (orElseP w1 (check_winner [a,d,g])).bind fun w2 =>
       (orElseP w2 (some none)).bind fun w3 =>
       (orElseP w3 (check_winner [c,e,g])).bind fun w4 =>
       some (match w4 with
         | some w => some w
         | none => if allFull [[a,b,c],[d,e,f],[g,h,i]] then some Winner.Tie else none)) from rfl,
      check_winner_line, check_winner_line, check_winner_line]
    simp [specPivotOutcome, tileAt, get?_lit0, get?_lit1, get?_lit2, specAllOccupied_shape]
    cases lineWinner g h i <;> cases lineWinner a d g <;> cases lineWinner c e g <;> simp [orElseP]
  · rw [show update_winner_aux ⟨[[a,b,c],[d,e,f],[g,h,i]], p, none⟩ 2 1 =
      ((check_winner [g,h,i]).bind fun w1 =>
       (orElseP w1 (check_winner [b,e,h])).bind fun w2 =>
       (orElseP w2 (some none)).bind fun w3 =>
       (orElseP w3 (some none)).bind fun w4 =>
       some (match w4 with
         | some w => some w
         | none => if allFull [[a,b,c],[d,e,f],[g,h,i]] then some Winner.Tie else none)) from rfl,
      check_winner_line, check_winner_line]
    simp [specPivotOutcome, tileAt, get?_lit0, get?_lit1, get?_lit2, specAllOccupied_shape]
    cases lineWinner g h i <;> cases lineWinner b e h <;> simp [orElseP]
  · rw [show update_winner_aux ⟨[[a,b,c],[d,e,f],[g,h,i]], p, none⟩ 2 2 =
      ((check_winner [g,h,i]).bind fun w1 =>
       (orElseP w1 (check_winner [c,f,i])).bind fun w2 =>
       (orElseP w2 (check_winner [a,e,i])).bind fun w3 =>
       (orElseP w3 (some none)).bind fun w4 =>
       some (match w4 with
         | some w => some w
         | none => if allFull [[a,b,c],[d,e,f],[g,h,i]] then some Winner.Tie else none)) from rfl,
      check_winner_line, check_winner_line, check_winner_line]
    simp [specPivotOutcome, tileAt, get?_lit0, get?_lit1, get?_lit2, specAllOccupied_shape]
    cases lineWinner g h i <;> cases lineWinner c f i <;> cases lineWinner a e i <;> simp [orElseP]


/-- Inversion of a successful `make_move`: the game was not finished, the
coordinates passed the bounds checks, the target tile was empty, and the
result state is the board with the piece placed, the flipped current piece,
and the winner computed by `update_winner_aux` on the updated board. -/
theorem make_move_ok_inv {g g' : Game} {row col : Nat}
    (hm : make_move g row col = some (Except.ok (), g')) :
    g.winner = none ∧ row < g.tiles.length ∧
    ∃ firstRow theRow : List Tile,
      g.tiles.get? 0 = some firstRow ∧ col < firstRow.length ∧
      g.tiles.get? row = some theRow ∧ theRow.get? col = some none ∧
      col < theRow.length ∧
      ∃ w : Option Winner,
        update_winner_aux
          ⟨g.tiles.set row (theRow.set col (some g.current_piece)),
           g.current_piece.other, g.winner⟩ row col = some w ∧
        g' = ⟨g.tiles.set row (theRow.set col (some g.current_piece)),
              g.current_piece.other, w⟩ := by
  unfold make_move at hm
  split at hm
  · simp at hm
  next hfin =>
    have hw : g.winner = none := Option.not_isSome_iff_eq_none.mp (by simpa [Game.is_finished] using hfin)
    split at hm
    · simp at hm
    next hrow =>
      rw [idx, Option.bind_eq_some] at hm
      obtain ⟨firstRow, hfr, hm⟩ := hm
      split at hm
      · simp at hm
      next hcol =>
        rw [idx, Option.bind_eq_some] at hm
        obtain ⟨theRow, htr, hm⟩ := hm
        rw [idx, Option.bind_eq_some] at hm
        obtain ⟨tile, htile, hm⟩ := hm
        split at hm
        · simp at hm
        next =>
          rw [setIdx] at hm
          split at hm
          next hcol2 =>
            rw [Option.some_bind, setIdx] at hm
            split at hm
            next hrow2 =>
              rw [Option.some_bind] at hm
              simp only [update_winner, Option.map_map, Option.map_eq_some'] at hm
              obtain ⟨w, hw2, heq⟩ := hm
              simp only [Function.comp_apply, Prod.mk.injEq, true_and] at heq
              exact ⟨hw, by omega, firstRow, theRow, hfr, by omega, htr, htile, hcol2, w, hw2, heq.symm⟩
            next => simp at hm
          next => simp at hm

/-- Setting one tile of a well-formed board keeps it well-formed. -/
theorem wf_set {t : Tiles} (hwf : Tiles.wf t) {row col : Nat} {r : List Tile} {v : Tile}
    (hr : t.get? row = some r) : Tiles.wf (t.set row (r.set col v)) := by
  obtain ⟨hlen, hrows⟩ := hwf
  refine ⟨by simp [hlen], ?_⟩
  intro r' hr'
  rcases List.mem_or_eq_of_mem_set hr' with h | h
  · exact hrows r' h
  · subst h
    rw [List.length_set]
    exact hrows r (List.get?_mem hr)

/-- Every reachable game has a well-formed 3x3 board (in Rust this is the
type of the `tiles` field). -/
theorem reachable_wf {g : Game} (h : Reachable g) : Tiles.wf g.tiles := by
  induction h with
  | new => decide
  | step hR hmv ih =>
    obtain ⟨-, -, firstRow, theRow, -, -, htr, -, -, w, -, hg'⟩ := make_move_ok_inv hmv
    rw [hg']
    exact wf_set ih htr

/-- Replacing the tile read at an index changes a per-tile sum over a row by
swapping the old tile's contribution for the new one. -/
theorem rowSum_set (f : Tile → Nat) :
    ∀ (r : List Tile) (n : Nat) (x v : Tile), r.get? n = some x →
      ((r.set n v).map f).sum + f x = (r.map f).sum + f v := by
  intro r
  induction r with
  | nil => intro n x v hx; simp at hx
  | cons hd tl ih =>
    intro n x v hx
    cases n with
    | zero =>
      simp only [get?_lit0, Option.some.injEq] at hx
      subst hx
      simp only [List.set_cons_zero, List.map_cons, List.sum_cons]
      omega
    | succ m =>
      rw [List.get?_cons_succ] at hx
      have := ih m x v hx
      simp only [List.set_cons_succ, List.map_cons, List.sum_cons]
      omega

/-- Board version of `rowSum_set`. -/
theorem tileCount_set (f : Tile → Nat) :
    ∀ (t : Tiles) (row : Nat) (r : List Tile) (col : Nat) (x v : Tile),
      t.get? row = some r → r.get? col = some x →
      tileCount f (t.set row (r.set col v)) + f x = tileCount f t + f v := by
  intro t
  induction t with
  | nil => intro row r col x v hr; simp at hr
  | cons hd tl ih =>
    intro row r col x v hr hx
    cases row with
    | zero =>
      simp only [get?_lit0, Option.some.injEq] at hr
      subst hr
      have := rowSum_set f hd col x v hx
      simp only [tileCount, List.set_cons_zero, List.map_cons, List.sum_cons]
      omega
    | succ m =>
      rw [List.get?_cons_succ] at hr
      have := ih m r col x v hr hx
      simp only [tileCount, List.set_cons_succ, List.map_cons, List.sum_cons] at this ⊢
      omega

/-- Reading back the tile just placed. -/
theorem tileAt_set_self {t : Tiles} {row col : Nat} {r : List Tile}
    (hr : t.get? row = some r) (hcol : col < r.length) (v : Tile) :
    tileAt (t.set row (r.set col v)) row col = v := by
  have hrowlt : row < t.length := (List.get?_eq_some.mp hr).1
  unfold tileAt
  simp only [List.get?_eq_getElem?]
  rw [List.getElem?_set_eq_of_lt _ hrowlt]
  simp only [Option.getD_some]
  rw [List.getElem?_set_eq_of_lt _ hcol]
  rfl

/-- Every tile other than the one just placed is unchanged. -/
theorem tileAt_set_other {t : Tiles} {row col : Nat} {r : List Tile}
    (hr : t.get? row = some r) {r' c' : Nat} (hne : ¬(r' = row ∧ c' = col)) (v : Tile) :
    tileAt (t.set row (r.set col v)) r' c' = tileAt t r' c' := by
  have hrowlt : row < t.length := (List.get?_eq_some.mp hr).1
  by_cases hrr : r' = row
  · subst hrr
    have hcc : c' ≠ col := fun h => hne ⟨rfl, h⟩
    unfold tileAt
    simp only [List.get?_eq_getElem?]
    rw [List.getElem?_set_eq_of_lt _ hrowlt]
    rw [List.get?_eq_getElem?] at hr
    rw [hr]
    simp only [Option.getD_some]
    rw [List.getElem?_set_ne (Ne.symm hcc)]
  · unfold tileAt
    simp only [List.get?_eq_getElem?]
    rw [List.getElem?_set_ne (Ne.symm hrr)]

/-- A move on a finished game returns `GameAlreadyOver` and leaves the state
unchanged (the source returns before any mutation). -/
theorem make_move_finished {g : Game} (hfin : g.is_finished = true) (row col : Nat) :
    make_move g row col = some (Except.error MoveError.GameAlreadyOver, g) := by
  simp [make_move, hfin]

/-- An out-of-range move on an unfinished game returns `InvalidPosition` and
leaves the state unchanged. -/
theorem make_move_invalid {g : Game} (hwf : Tiles.wf g.tiles) (hfin : g.is_finished = false)
    {row col : Nat} (hout : 3 ≤ row ∨ 3 ≤ col) :
    make_move g row col = some (Except.error (MoveError.InvalidPosition row col), g) := by
  obtain ⟨a, b, c, d, e, f, u, v, z, hshape⟩ := wf_shape hwf
  by_cases h2 : 3 ≤ row
  · simp [make_move, hfin, hshape, h2]
  · rcases hout with h | h
    · omega
    · simp [make_move, hfin, hshape, idx, get?_lit0, h, h2]

/-- A move onto an occupied tile of an unfinished game returns
`TileNotEmpty` with the occupying piece and leaves the state unchanged. -/
theorem make_move_occupied {g : Game} (hwf : Tiles.wf g.tiles) (hfin : g.is_finished = false)
    {row col : Nat} (hrow : row < 3) (hcol : col < 3) {p : Piece}
    (hocc : tileAt g.tiles row col = some p) :
    make_move g row col = some (Except.error (MoveError.TileNotEmpty p row col), g) := by
  rcases g with ⟨t, p0, w0⟩
  have hw0 : w0 = none := Option.not_isSome_iff_eq_none.mp (by simpa [Game.is_finished] using hfin)
  subst hw0
  simp only at hwf hocc ⊢
  obtain ⟨a, b, c, d, e, f, u, v, z, hshape⟩ := wf_shape hwf
  subst hshape
  interval_cases row <;> interval_cases col <;>
    (simp only [tileAt, get?_lit0, get?_lit1, get?_lit2, Option.getD_some] at hocc;
     rw [hocc]) <;> rfl

/-- A move onto an empty tile of an unfinished game succeeds. -/
theorem make_move_success {g : Game} (hwf : Tiles.wf g.tiles) (hfin : g.is_finished = false)
    {row col : Nat} (hrow : row < 3) (hcol : col < 3)
    (hemp : tileAt g.tiles row col = none) :
    ∃ g' : Game, make_move g row col = some (Except.ok (), g') := by
  rcases g with ⟨t, p0, w0⟩
  have hw0 : w0 = none := Option.not_isSome_iff_eq_none.mp (by simpa [Game.is_finished] using hfin)
  subst hw0
  simp only at hwf hemp ⊢
  obtain ⟨a, b, c, d, e, f, u, v, z, hshape⟩ := wf_shape hwf
  subst hshape
  interval_cases row <;> interval_cases col
  · simp only [tileAt, get?_lit0, get?_lit1, get?_lit2, Option.getD_some] at hemp
    subst hemp
    refine ⟨⟨[[some p0,b,c],[d,e,f],[u,v,z]], p0.other, specPivotOutcome [[some p0,b,c],[d,e,f],[u,v,z]] 0 0⟩, ?_⟩
    rw [show make_move ⟨[[none,b,c],[d,e,f],[u,v,z]], p0, none⟩ 0 0 =
        (update_winner ⟨[[some p0,b,c],[d,e,f],[u,v,z]], p0.other, none⟩ 0 0).map
          (fun g2 => (Except.ok (), g2)) from rfl,
      update_winner, update_winner_aux_spec _ _ _ _ _ _ _ _ _ _ 0 0 (by norm_num) (by norm_num)]
    rfl
  · simp only [tileAt, get?_lit0, get?_lit1, get?_lit2, Option.getD_some] at hemp
    subst hemp
    refine ⟨⟨[[a,some p0,c],[d,e,f],[u,v,z]], p0.other, specPivotOutcome [[a,some p0,c],[d,e,f],[u,v,z]] 0 1⟩, ?_⟩
    rw [show make_move ⟨[[a,none,c],[d,e,f],[u,v,z]], p0, none⟩ 0 1 =
        (update_winner ⟨[[a,some p0,c],[d,e,f],[u,v,z]], p0.other, none⟩ 0 1).map
          (fun g2 => (Except.ok (), g2)) from rfl,
      update_winner, update_winner_aux_spec _ _ _ _ _ _ _ _ _ _ 0 1 (by norm_num) (by norm_num)]
    rfl
  · simp only [tileAt, get?_lit0, get?_lit1, get?_lit2, Option.getD_some] at hemp
    subst hemp
    refine ⟨⟨[[a,b,some p0],[d,e,f],[u,v,z]], p0.other, specPivotOutcome [[a,b,some p0],[d,e,f],[u,v,z]] 0 2⟩, ?_⟩
    rw [show make_move ⟨[[a,b,none],[d,e,f],[u,v,z]], p0, none⟩ 0 2 =
        (update_winner ⟨[[a,b,some p0],[d,e,f],[u,v,z]], p0.other, none⟩ 0 2).map
          (fun g2 => (Except.ok (), g2)) from rfl,
      update_winner, update_winner_aux_spec _ _ _ _ _ _ _ _ _ _ 0 2 (by norm_num) (by norm_num)]
    rfl
  · simp only [tileAt, get?_lit0, get?_lit1, get?_lit2, Option.getD_some] at hemp
    subst hemp
    refine ⟨⟨[[a,b,c],[some p0,e,f],[u,v,z]], p0.other, specPivotOutcome [[a,b,c],[some p0,e,f],[u,v,z]] 1 0⟩, ?_⟩
    rw [show make_move ⟨[[a,b,c],[none,e,f],[u,v,z]], p0, none⟩ 1 0 =
        (update_winner ⟨[[a,b,c],[some p0,e,f],[u,v,z]], p0.other, none⟩ 1 0).map
          (fun g2 => (Except.ok (), g2)) from rfl,
      update_winner, update_winner_aux_spec _ _ _ _ _ _ _ _ _ _ 1 0 (by norm_num) (by norm_num)]
    rfl
  · simp only [tileAt, get?_lit0, get?_lit1, get?_lit2, Option.getD_some] at hemp
    subst hemp
    refine ⟨⟨[[a,b,c],[d,some p0,f],[u,v,z]], p0.other, specPivotOutcome [[a,b,c],[d,some p0,f],[u,v,z]] 1 1⟩, ?_⟩
    rw [show make_move ⟨[[a,b,c],[d,none,f],[u,v,z]], p0, none⟩ 1 1 =
        (update_winner ⟨[[a,b,c],[d,some p0,f],[u,v,z]], p0.other, none⟩ 1 1).map
          (fun g2 => (Except.ok (), g2)) from rfl,
      update_winner, update_winner_aux_spec _ _ _ _ _ _ _ _ _ _ 1 1 (by norm_num) (by norm_num)]
    rfl
  · simp only [tileAt, get?_lit0, get?_lit1, get?_lit2, Option.getD_some] at hemp
    subst hemp
    refine ⟨⟨[[a,b,c],[d,e,some p0],[u,v,z]], p0.other, specPivotOutcome [[a,b,c],[d,e,some p0],[u,v,z]] 1 2⟩, ?_⟩
    rw [show make_move ⟨[[a,b,c],[d,e,none],[u,v,z]], p0, none⟩ 1 2 =
        (update_winner ⟨[[a,b,c],[d,e,some p0],[u,v,z]], p0.other, none⟩ 1 2).map
          (fun g2 => (Except.ok (), g2)) from rfl,
      update_winner, update_winner_aux_spec _ _ _ _ _ _ _ _ _ _ 1 2 (by norm_num) (by norm_num)]
    rfl
  · simp only [tileAt, get?_lit0, get?_lit1, get?_lit2, Option.getD_some] at hemp
    subst hemp
    refine ⟨⟨[[a,b,c],[d,e,f],[some p0,v,z]], p0.other, specPivotOutcome [[a,b,c],[d,e,f],[some p0,v,z]] 2 0⟩, ?_⟩
    rw [show make_move ⟨[[a,b,c],[d,e,f],[none,v,z]], p0, none⟩ 2 0 =
        (update_winner ⟨[[a,b,c],[d,e,f],[some p0,v,z]], p0.other, none⟩ 2 0).map
          (fun g2 => (Except.ok (), g2)) from rfl,
      update_winner, update_winner_aux_spec _ _ _ _ _ _ _ _ _ _ 2 0 (by norm_num) (by norm_num)]
    rfl
  · simp only [tileAt, get?_lit0, get?_lit1, get?_lit2, Option.getD_some] at hemp
    subst hemp
    refine ⟨⟨[[a,b,c],[d,e,f],[u,some p0,z]], p0.other, specPivotOutcome [[a,b,c],[d,e,f],[u,some p0,z]] 2 1⟩, ?_⟩
    rw [show make_move ⟨[[a,b,c],[d,e,f],[u,none,z]], p0, none⟩ 2 1 =
        (update_winner ⟨[[a,b,c],[d,e,f],[u,some p0,z]], p0.other, none⟩ 2 1).map
          (fun g2 => (Except.ok (), g2)) from rfl,
      update_winner, update_winner_aux_spec _ _ _ _ _ _ _ _ _ _ 2 1 (by norm_num) (by norm_num)]
    rfl
  · simp only [tileAt, get?_lit0, get?_lit1, get?_lit2, Option.getD_some] at hemp
    subst hemp
    refine ⟨⟨[[a,b,c],[d,e,f],[u,v,some p0]], p0.other, specPivotOutcome [[a,b,c],[d,e,f],[u,v,some p0]] 2 2⟩, ?_⟩
    rw [show make_move ⟨[[a,b,c],[d,e,f],[u,v,none]], p0, none⟩ 2 2 =
        (update_winner ⟨[[a,b,c],[d,e,f],[u,v,some p0]], p0.other, none⟩ 2 2).map
          (fun g2 => (Except.ok (), g2)) from rfl,
      update_winner, update_winner_aux_spec _ _ _ _ _ _ _ _ _ _ 2 2 (by norm_num) (by norm_num)]
    rfl

/-- With a winner already present, `update_winner_aux` can only return that
same winner: the `or_else` chain starts from `self.winner` and no branch
overwrites a `Some`. -/
theorem update_winner_aux_some {g : Game} {w : Winner} (hw : g.winner = some w)
    {row col : Nat} {wv : Option Winner}
    (haux : update_winner_aux g row col = some wv) : wv = some w := by
  simp only [update_winner_aux, idx] at haux
  rw [Option.bind_eq_some] at haux
  obtain ⟨fr, -, haux⟩ := haux
  rw [Option.bind_eq_some] at haux
  obtain ⟨tr, -, haux⟩ := haux
  rw [Option.bind_eq_some] at haux
  obtain ⟨c0, -, haux⟩ := haux
  rw [Option.bind_eq_some] at haux
  obtain ⟨e0, -, haux⟩ := haux
  rw [Option.bind_eq_some] at haux
  obtain ⟨c1, -, haux⟩ := haux
  rw [Option.bind_eq_some] at haux
  obtain ⟨e1, -, haux⟩ := haux
  rw [Option.bind_eq_some] at haux
  obtain ⟨c2, -, haux⟩ := haux
  rw [Option.bind_eq_some] at haux
  obtain ⟨e2, -, haux⟩ := haux
  split at haux
  next =>
    rw [Option.bind_eq_some] at haux
    obtain ⟨diag1, -, haux⟩ := haux
    rw [Option.bind_eq_some] at haux
    obtain ⟨antiRow, -, haux⟩ := haux
    rw [Option.bind_eq_some] at haux
    obtain ⟨diag2, -, haux⟩ := haux
    rw [hw] at haux
    simp only [orElseP, Option.some_bind, Option.some.injEq] at haux
    exact haux.symm
  next => simp at haux

/-- C2: error precedence of `make_move`: `GameAlreadyOver` when the outcome
is present, checked first regardless of the coordinates; otherwise
`InvalidPosition` when `row` or `col` is outside `[0, 3)`; otherwise
`TileNotEmpty` with the occupying piece when the target tile is occupied;
otherwise the move succeeds. -/
theorem c2_error_cases (g : Game) (row col : Nat) (hwf : Tiles.wf g.tiles) :
    (g.is_finished = true →
      make_move g row col = some (Except.error MoveError.GameAlreadyOver, g)) ∧
    (g.is_finished = false → 3 ≤ row ∨ 3 ≤ col →
      make_move g row col = some (Except.error (MoveError.InvalidPosition row col), g)) ∧
    (∀ p : Piece, g.is_finished = false → row < 3 → col < 3 →
      tileAt g.tiles row col = some p →
      make_move g row col = some (Except.error (MoveError.TileNotEmpty p row col), g)) ∧
    (g.is_finished = false → row < 3 → col < 3 → tileAt g.tiles row col = none →
      ∃ g', make_move g row col = some (Except.ok (), g')) :=
  ⟨fun h => make_move_finished h row col,
   fun hfin hout => make_move_invalid hwf hfin hout,
   fun _ hfin hr hc hocc => make_move_occupied hwf hfin hr hc hocc,
   fun hfin hr hc hemp => make_move_success hwf hfin hr hc hemp⟩

/-- C3: whenever `make_move` returns an error, the resulting state is
exactly the state before the call; no failure path mutates anything. -/
theorem c3_error_no_mutation (g : Game) (row col : Nat) (e : MoveError) (g' : Game)
    (hm : make_move g row col = some (Except.error e, g')) : g' = g := by
  unfold make_move at hm
  split at hm
  · simp only [Option.some.injEq, Prod.mk.injEq] at hm
    exact hm.2.symm
  next =>
    split at hm
    · simp only [Option.some.injEq, Prod.mk.injEq] at hm
      exact hm.2.symm
    next =>
      rw [idx, Option.bind_eq_some] at hm
      obtain ⟨firstRow, -, hm⟩ := hm
      split at hm
      · simp only [Option.some.injEq, Prod.mk.injEq] at hm
        exact hm.2.symm
      next =>
        rw [idx, Option.bind_eq_some] at hm
        obtain ⟨theRow, -, hm⟩ := hm
        rw [idx, Option.bind_eq_some] at hm
        obtain ⟨tile, -, hm⟩ := hm
        split at hm
        · simp only [Option.some.injEq, Prod.mk.injEq] at hm
          exact hm.2.symm
        next =>
          rw [setIdx] at hm
          split at hm
          next =>
            rw [Option.some_bind, setIdx] at hm
            split at hm
            next =>
              rw [Option.some_bind] at hm
              simp only [update_winner, Option.map_map, Option.map_eq_some'] at hm
              obtain ⟨w, -, heq⟩ := hm
              simp [Function.comp_apply] at heq
            next => simp at hm
          next => simp at hm

/-- C5: a present outcome is permanent: every later `make_move` fails with
`GameAlreadyOver` leaving the state unchanged, and outcome evaluation never
overwrites an already-set outcome. -/
theorem c5_outcome_monotonic (g : Game) (w : Winner) (hw : g.winner = some w) (row col : Nat) :
    make_move g row col = some (Except.error MoveError.GameAlreadyOver, g) ∧
    (∀ g', update_winner g row col = some g' → g'.winner = some w) := by
  constructor
  · exact make_move_finished (by simp [Game.is_finished, hw]) row col
  · intro g' hu
    unfold update_winner at hu
    rw [Option.map_eq_some'] at hu
    obtain ⟨wv, haux, heq⟩ := hu
    rw [← heq]
    exact update_winner_aux_some hw haux

/-- C6: `Game::new` yields all nine tiles empty, current piece X (First),
and no outcome; the constructor is total, with no failure modes. -/
theorem c6_fresh_game :
    (∀ r < 3, ∀ c < 3, tileAt Game.new.tiles r c = none) ∧
    Game.new.current_piece = Piece.X ∧ Game.new.winner = none := by
  refine ⟨?_, rfl, rfl⟩
  decide

/-- C7 (refuting evaluation): on the one-character input "é" — whose UTF-8
byte length is 2, so it passes the length test — `parse_move` byte-slices
`[0..1]` through the middle of the character and aborts at runtime
(modelled as `none`) instead of returning an `InvalidMove` error. -/
theorem c7_parse_move_aborts_on_two_byte_char : parse_move ['é'] = none := by rfl

/-- C8: on every reachable game state and all representable coordinates,
`make_move` — including its outcome evaluation with its array indexing and
its 3x3 size assertion — returns normally (never aborts). -/
theorem c8_never_aborts (g : Game) (h : Reachable g) (row col : Nat) :
    ∃ out, make_move g row col = some out := by
  have hwf := reachable_wf h
  cases hfin : g.is_finished with
  | true => exact ⟨_, make_move_finished hfin row col⟩
  | false =>
    by_cases hrow : row < 3
    · by_cases hcol : col < 3
      · cases hocc : tileAt g.tiles row col with
        | none =>
          obtain ⟨g', hg'⟩ := make_move_success hwf hfin hrow hcol hocc
          exact ⟨_, hg'⟩
        | some p => exact ⟨_, make_move_occupied hwf hfin hrow hcol hocc⟩
      · exact ⟨_, make_move_invalid hwf hfin (Or.inr (by omega))⟩
    · exact ⟨_, make_move_invalid hwf hfin (Or.inl (by omega))⟩

/-- C9: from a fresh game, the moves (0,0),(1,1),(0,1),(2,2),(0,2) all
succeed and leave the outcome FirstWins (`Winner.X`) with `is_finished`
true (`playAll` returns `some` only when every move succeeds). -/
theorem c9_scenario_top_row :
    (playAll Game.new [(0,0),(1,1),(0,1),(2,2),(0,2)]).map
      (fun g => (g.winner, g.is_finished)) = some (some Winner.X, true) := by
  rfl

/-- C1: after every successful `make_move`, the stored winner is exactly the
spec's pivot algorithm evaluated on the post-move board: row, column,
main diagonal (when `row = col`), anti-diagonal (when `row + col = 2`), in
that order, each winning iff its three tiles hold the same piece; with no
winner, Tie exactly when all nine tiles are occupied, and otherwise no
outcome. -/
theorem c1_winner_as_spec (g : Game) (row col : Nat) (g' : Game) (hwf : Tiles.wf g.tiles)
    (hm : make_move g row col = some (Except.ok (), g')) :
    g'.winner = specPivotOutcome g'.tiles row col := by
  obtain ⟨hwinner, hrowlt, firstRow, theRow, hfr, hcollt, htr, htile, hcoltr, w, haux, hg'⟩ :=
    make_move_ok_inv hm
  have hwf' : Tiles.wf (g.tiles.set row (theRow.set col (some g.current_piece))) :=
    wf_set hwf htr
  obtain ⟨a, b, c, d, e, f, u, v, z, hshape⟩ := wf_shape hwf'
  have hrow3 : row < 3 := by
    have := hwf.1
    omega
  have hcol3 : col < 3 := by
    have := hwf.2 firstRow (List.get?_mem hfr)
    omega
  subst hg'
  simp only
  rw [hshape, hwinner] at haux
  rw [update_winner_aux_spec a b c d e f u v z _ row col hrow3 hcol3] at haux
  rw [hshape]
  simpa using haux.symm

/-- C4: a successful `make_move` turns exactly the target tile from empty to
the piece that was current before the call, leaves every other tile
unchanged, flips the current piece, and raises the occupied-tile count by
exactly one. -/
theorem c4_success_frame (g : Game) (row col : Nat) (g' : Game)
    (hm : make_move g row col = some (Except.ok (), g')) :
    tileAt g.tiles row col = none ∧
    tileAt g'.tiles row col = some g.current_piece ∧
    (∀ r c : Nat, ¬(r = row ∧ c = col) → tileAt g'.tiles r c = tileAt g.tiles r c) ∧
    g'.current_piece = g.current_piece.other ∧
    countOccupied g'.tiles = countOccupied g.tiles + 1 := by
  obtain ⟨hwinner, hrowlt, firstRow, theRow, hfr, hcollt, htr, htile, hcoltr, w, haux, hg'⟩ :=
    make_move_ok_inv hm
  subst hg'
  refine ⟨?_, ?_, ?_, rfl, ?_⟩
  · unfold tileAt
    rw [htr]
    simp only [Option.getD_some]
    rw [htile]
    rfl
  · exact tileAt_set_self htr hcoltr _
  · intro r c hne
    exact tileAt_set_other htr hne _
  · have hcs := tileCount_set (fun tile => if tile.isSome then 1 else 0)
      g.tiles row theRow col none (some g.current_piece) htr htile
    simp only [countOccupied]
    norm_num at hcs
    omega

/-- In every reachable state, X's tile count exceeds O's by exactly the
turn offset: 0 when X is to move, 1 when O is to move. -/
theorem piece_balance {g : Game} (h : Reachable g) :
    countPiece Piece.X g.tiles =
      countPiece Piece.O g.tiles + (if g.current_piece = Piece.O then 1 else 0) := by
  induction h with
  | new => decide
  | @step gp g' rowp colp hR hmv ih =>
    obtain ⟨-, -, firstRow, theRow, -, -, htr, htile, -, w, -, hg'⟩ := make_move_ok_inv hmv
    subst hg'
    have hX := tileCount_set (fun tile => if tile = some Piece.X then 1 else 0)
      gp.tiles rowp theRow colp none (some gp.current_piece) htr htile
    have hO := tileCount_set (fun tile => if tile = some Piece.O then 1 else 0)
      gp.tiles rowp theRow colp none (some gp.current_piece) htr htile
    simp only [countPiece] at ih ⊢
    cases hp : gp.current_piece with
    | X =>
      rw [hp] at hX hO ih
      simp [Piece.other] at hX hO ih ⊢
      omega
    | O =>
      rw [hp] at hX hO ih
      simp [Piece.other] at hX hO ih ⊢
      omega

/-- C10: in every reachable state the number of X tiles equals the number of
O tiles when X is to move, and exceeds it by exactly one when O is to move;
X never trails and never leads by more than one. -/
theorem c10_balance (g : Game) (h : Reachable g) :
    (g.current_piece = Piece.X →
      countPiece Piece.X g.tiles = countPiece Piece.O g.tiles) ∧
    (g.current_piece = Piece.O →
      countPiece Piece.X g.tiles = countPiece Piece.O g.tiles + 1) := by
  have hb := piece_balance h
  constructor <;> intro hp <;> rw [hp] at hb <;> simpa using hb

/-- Witness for C1 at the concrete first move (0,0) from a fresh game. -/
theorem c1_winner_as_spec_witness :
    (⟨[[some Piece.X, none, none], [none, none, none], [none, none, none]],
      Piece.O, none⟩ : Game).winner =
      specPivotOutcome
        [[some Piece.X, none, none], [none, none, none], [none, none, none]] 0 0 :=
  c1_winner_as_spec Game.new 0 0
    ⟨[[some Piece.X, none, none], [none, none, none], [none, none, none]], Piece.O, none⟩
    (by decide) (by rfl)

/-- Witness for C2 at the fresh game and coordinates (0,0). -/
theorem c2_error_cases_witness :
    (Game.new.is_finished = true →
      make_move Game.new 0 0 = some (Except.error MoveError.GameAlreadyOver, Game.new)) ∧
    (Game.new.is_finished = false → 3 ≤ 0 ∨ 3 ≤ 0 →
      make_move Game.new 0 0 = some (Except.error (MoveError.InvalidPosition 0 0), Game.new)) ∧
    (∀ p : Piece, Game.new.is_finished = false → 0 < 3 → 0 < 3 →
      tileAt Game.new.tiles 0 0 = some p →
      make_move Game.new 0 0 = some (Except.error (MoveError.TileNotEmpty p 0 0), Game.new)) ∧
    (Game.new.is_finished = false → 0 < 3 → 0 < 3 → tileAt Game.new.tiles 0 0 = none →
      ∃ g', make_move Game.new 0 0 = some (Except.ok (), g')) :=
  c2_error_cases Game.new 0 0 (by decide)

/-- Witness for C3 at the out-of-range move (5,0) on a fresh game. -/
theorem c3_error_no_mutation_witness :
    make_move Game.new 5 0 = some (Except.error (MoveError.InvalidPosition 5 0), Game.new) ∧
    Game.new = Game.new :=
  ⟨by rfl, c3_error_no_mutation Game.new 5 0 (MoveError.InvalidPosition 5 0) Game.new (by rfl)⟩

/-- Witness for C4 at the concrete first move (1,2) from a fresh game. -/
theorem c4_success_frame_witness :
    tileAt Game.new.tiles 1 2 = none ∧
    tileAt (⟨[[none, none, none], [none, none, some Piece.X], [none, none, none]],
      Piece.O, none⟩ : Game).tiles 1 2 = some Game.new.current_piece ∧
    (∀ r c : Nat, ¬(r = 1 ∧ c = 2) →
      tileAt (⟨[[none, none, none], [none, none, some Piece.X], [none, none, none]],
        Piece.O, none⟩ : Game).tiles r c = tileAt Game.new.tiles r c) ∧
    (⟨[[none, none, none], [none, none, some Piece.X], [none, none, none]],
      Piece.O, none⟩ : Game).current_piece = Game.new.current_piece.other ∧
    countOccupied (⟨[[none, none, none], [none, none, some Piece.X], [none, none, none]],
      Piece.O, none⟩ : Game).tiles = countOccupied Game.new.tiles + 1 :=
  c4_success_frame Game.new 1 2
    ⟨[[none, none, none], [none, none, some Piece.X], [none, none, none]], Piece.O, none⟩
    (by rfl)

/-- Witness for C5 at a concrete finished (tied) game. -/
theorem c5_outcome_monotonic_witness :
    make_move ⟨[[none, none, none], [none, none, none], [none, none, none]],
      Piece.X, some Winner.Tie⟩ 0 0 =
      some (Except.error MoveError.GameAlreadyOver,
        ⟨[[none, none, none], [none, none, none], [none, none, none]],
         Piece.X, some Winner.Tie⟩) ∧
    (∀ g', update_winner ⟨[[none, none, none], [none, none, none], [none, none, none]],
      Piece.X, some Winner.Tie⟩ 0 0 = some g' → g'.winner = some Winner.Tie) :=
  c5_outcome_monotonic
    ⟨[[none, none, none], [none, none, none], [none, none, none]], Piece.X, some Winner.Tie⟩
    Winner.Tie (by rfl) 0 0

/-- Witness for C8 at the fresh game and far out-of-range coordinates. -/
theorem c8_never_aborts_witness : ∃ out, make_move Game.new 99 7 = some out :=
  c8_never_aborts Game.new Reachable.new 99 7

/-- Witness for C10 at the fresh game. -/
theorem c10_balance_witness :
    (Game.new.current_piece = Piece.X →
      countPiece Piece.X Game.new.tiles = countPiece Piece.O Game.new.tiles) ∧
    (Game.new.current_piece = Piece.O →
      countPiece Piece.X Game.new.tiles = countPiece Piece.O Game.new.tiles + 1) :=
  c10_balance Game.new Reachable.new

end TicTacToe
